import Mathlib

/-!
Verification of `tgbot_delete_noncomment`, a Telegram moderation bot that
detects messages posted outside a channel's discussion threads, warns the
author (subject to a per-user cooldown) and records the warning.

The development embeds the store-backed variant of the core
(`src/analyzer.py`, `src/warning_manager.py`, `src/db.py`), which the
specification adopts as the unified design.  Python truthiness of optional
fields (`if getattr(message, "sender_chat", None):`, `if not ts:`) is
modelled explicitly; time is an explicit integer parameter standing for
`int(datetime.now(timezone.utc).timestamp())`.
-/

set_option maxHeartbeats 1000000

namespace TgBot

/-- `TELEGRAM_SERVICE_ID = 777000` from `src/analyzer.py`. -/
def TELEGRAM_SERVICE_ID : Int := 777000

/-- A Telegram chat object; only its `id` is inspected by the analyzer. -/
structure Chat where
  id : Int
deriving DecidableEq, Repr

/-- A Telegram user as seen by the analyzer; only its `id` is inspected. -/
structure User where
  id : Int
deriving DecidableEq, Repr

/-- `message.forward_origin`: the analyzer reads `origin.chat` with a
`getattr` default, so the chat may be absent (modelled as `none`). -/
structure ForwardOrigin where
  chat : Option Chat
deriving DecidableEq, Repr

/-- The configuration consumed by `MessageAnalyzer` (`src/settings.py`):
`channel_id` and `max_chain_depth`. -/
structure AnalyzerSettings where
  channel_id : Int
  max_chain_depth : Nat
deriving DecidableEq, Repr

/-- The message view inspected by `src/analyzer.py`.  Every field the code
reads through `getattr(…, default)` is optional; `reply_to_message` is a
backward reference forming the reply-ancestry chain. -/
inductive Message where
  | mk
      (sender_chat : Option Chat)
      (from_user : Option User)
      (is_automatic_forward : Bool)
      (forward_from_chat : Option Chat)
      (forward_origin : Option ForwardOrigin)
      (message_thread_id : Option Int)
      (reply_to_message : Option Message)
deriving Repr

def Message.sender_chat : Message → Option Chat
  | .mk sc _ _ _ _ _ _ => sc

def Message.from_user : Message → Option User
  | .mk _ fu _ _ _ _ _ => fu

def Message.is_automatic_forward : Message → Bool
  | .mk _ _ af _ _ _ _ => af

def Message.forward_from_chat : Message → Option Chat
  | .mk _ _ _ ffc _ _ _ => ffc

def Message.forward_origin : Message → Option ForwardOrigin
  | .mk _ _ _ _ fo _ _ => fo

def Message.message_thread_id : Message → Option Int
  | .mk _ _ _ _ _ mti _ => mti

def Message.reply_to_message : Message → Option Message
  | .mk _ _ _ _ _ _ ro => ro

/-- Python truthiness of an optional integer field: `None` and `0` are
falsy (`if getattr(message, "message_thread_id", None):`). -/
def truthyInt : Option Int → Bool
  | none => false
  | some t => t != 0

/-- `MessageAnalyzer.is_channel_post` (`src/analyzer.py` lines 11-29).
A chat object, when present, is always truthy in Python, so the
`sender_chat` check is `isSome`; the `try/except` wrapper is vacuous in the
embedding because every field access is `getattr` with a default. -/
def is_channel_post (s : AnalyzerSettings) (m : Message) : Bool :=
  if m.sender_chat.isSome then true
  else if (match m.from_user with
           | some u => u.id == TELEGRAM_SERVICE_ID
           | none => false) then true
  else if m.is_automatic_forward then true
  else if (match m.forward_from_chat with
           | some c => c.id == s.channel_id
           | none => false) then true
  else if (match m.forward_origin with
           | some o =>
               (match o.chat with
                | some c => c.id == s.channel_id
                | none => false)
           | none => false) then true
  else false

/-- `MessageAnalyzer._check_reply_chain` (`src/analyzer.py` lines 38-50):
bounded walk over the reply ancestry.  At each step the examined ancestor
is `reply = message.reply_to_message`; the channel-post and thread-id
checks on `reply` precede the recursion into `reply`'s own parent. -/
def check_reply_chain (s : AnalyzerSettings) : Message → Nat → Bool
  | .mk _ _ _ _ _ _ ro, depth =>
    if depth ≥ s.max_chain_depth then false
    else
      match ro with
      | none => false
      | some reply =>
        if is_channel_post s reply then true
        else if truthyInt reply.message_thread_id then true
        else
          match reply.reply_to_message with
          | some _ => check_reply_chain s reply (depth + 1)
          | none => false

/-- `MessageAnalyzer.is_in_discussion_thread` (`src/analyzer.py` lines
31-36). -/
def is_in_discussion_thread (s : AnalyzerSettings) (m : Message) : Bool :=
  if is_channel_post s m then true
  else if truthyInt m.message_thread_id then true
  else check_reply_chain s m 0

/-- An ancestor qualifies when the walk stops at it: it is a channel post
or carries a truthy thread id (the two stop conditions of the walk). -/
def qualifies (s : AnalyzerSettings) (m : Message) : Bool :=
  is_channel_post s m || truthyInt m.message_thread_id

/-- The reply ancestry of a message: index 0 is the immediate parent. -/
def ancestors : Message → List Message
  | .mk _ _ _ _ _ _ none => []
  | .mk _ _ _ _ _ _ (some r) => r :: ancestors r

/-- A message with every optional field absent, used as `getD` default. -/
def blankMessage : Message := .mk none none false none none none none

/-! ## Warning cooldown store (`src/db.py`) and orchestrator
(`src/warning_manager.py`)

The sqlite table `warnings(user_id INTEGER PRIMARY KEY, last_warning_ts
INTEGER)` and the Python dict mirror are both association lists keyed by
user id, kept in insertion order with unique keys.  `set_last_warning`
performs the `INSERT … ON CONFLICT(user_id) DO UPDATE` upsert. -/

/-- A table or dict of `user_id ↦ last_warning_ts` records. -/
abbrev WTable := List (Int × Int)

/-- Point lookup by key: the value of the (unique) record for `uid`. -/
def assocFind (tbl : WTable) (uid : Int) : Option Int :=
  (tbl.find? (fun r => r.1 == uid)).map (fun r => r.2)

/-- `db.set_last_warning` (`src/db.py` lines 23-30): an upsert — update the
existing row for `uid` if one exists, otherwise insert a new row.  The same
algorithm models Python dict assignment `self._cache[user_id] = now`. -/
def set_last_warning (tbl : WTable) (uid ts : Int) : WTable :=
  if tbl.any (fun r => r.1 == uid) then
    tbl.map (fun r => if r.1 == uid then (uid, ts) else r)
  else tbl ++ [(uid, ts)]

/-- `db.get_last_warning` (`src/db.py` lines 33-37). -/
def get_last_warning (tbl : WTable) (uid : Int) : Option Int :=
  assocFind tbl uid

/-- The mutable state of `WarningManager`: the durable store (the sqlite
table reached through `src/db.py`) and the in-memory mirror `self._cache`. -/
structure WMState where
  store : WTable
  cache : WTable
deriving DecidableEq, Repr

/-- `if not self._cache: await self._load_cache()` — when the mirror dict is
empty (falsy) it is replaced by the full store snapshot
(`db.get_all_warnings`). -/
def loadIfEmpty (st : WMState) : WMState :=
  if st.cache.isEmpty then { st with cache := st.store } else st

/-- `WarningManager.can_warn` (`src/warning_manager.py` lines 39-46).
`if not ts: return True` treats both an absent entry and a stored `0` as
"no prior warning".  Returns the result together with the possibly
mutated state (the lazy mirror load). -/
def can_warn (cd : Int) (st : WMState) (uid now : Int) : Bool × WMState :=
  let st1 := loadIfEmpty st
  match assocFind st1.cache uid with
  | none => (true, st1)
  | some ts =>
      if ts = 0 then (true, st1)
      else (decide ((now - ts) ≥ cd), st1)

/-- `WarningManager.record_warning` (`src/warning_manager.py` lines 48-51):
persist to the store, then update the mirror, both with the same `now`. -/
def record_warning (st : WMState) (uid now : Int) : WMState :=
  { store := set_last_warning st.store uid now
    cache := set_last_warning st.cache uid now }

/-- `WarningManager.get_time_until_next_warning` (`src/warning_manager.py`
lines 53-61): `max(0, remaining) if remaining > 0 else None`, with the
same `if not ts` falsiness as `can_warn`. -/
def get_time_until_next_warning (cd : Int) (st : WMState) (uid now : Int) :
    Option Int × WMState :=
  let st1 := loadIfEmpty st
  match assocFind st1.cache uid with
  | none => (none, st1)
  | some ts =>
      if ts = 0 then (none, st1)
      else
        let remaining := cd - (now - ts)
        (if remaining > 0 then some (max 0 remaining) else none, st1)

/-- A user as seen by `WarningManager._render_message`: `username` is
optional (and falsy when the empty string), `full_name` is always a
string in aiogram. -/
structure WUser where
  id : Int
  username : Option String
  full_name : String
deriving DecidableEq, Repr

/-- The message view consumed by `WarningManager.send_warning`:
`message.from_user`, `message.chat.id`, `message.message_id`. -/
structure WMessage where
  from_user : Option WUser
  chat_id : Int
  message_id : Int
deriving DecidableEq, Repr

/-- `html.escape(s, quote=True)` as used by `_render_message`. -/
def htmlEscape (s : String) : String :=
  String.join (s.toList.map (fun c =>
    if c = '&' then "&amp;"
    else if c = '<' then "&lt;"
    else if c = '>' then "&gt;"
    else if c = '\x22' then "&quot;"
    else if c = '\x27' then "&#x27;"
    else String.singleton c))

/-- `WarningManager._render_message` (`src/warning_manager.py` lines
63-88) instantiated at the default template of `src/settings.py`, whose
only placeholder is `{username}`: prefer `@username` when truthy, else the
escaped `full_name`; without a user fall back to the generic salutation. -/
def render_message (user : Option WUser) : String :=
  let username :=
    match user with
    | some u =>
        match u.username with
        | some h => if h = "" then htmlEscape u.full_name else "@" ++ h
        | none => htmlEscape u.full_name
    | none => "Пользователь"
  "Похоже " ++ username ++ ", вы пишете в общем чате, тогда как Ваш ответ " ++
    "должен быть записан как комментарий под постом.\n\n" ++
    "Перенесите сообщение в комментарии под соответствующим постом."

/-- The outcome of `bot.send_message`: a sent message id on success, or a
raised exception (`aiogram` delivery error) on failure. -/
inductive Transport where
  | ok (sent_message_id : Int)
  | err
deriving DecidableEq, Repr

/-- `WarningManager.send_warning` (`src/warning_manager.py` lines 90-113).
Returns the sent warning's id (`None` when skipped, suppressed or failed)
together with the updated state.  The transport outcome is an explicit
parameter; `record_warning` runs only after a successful send, inside the
`try`.  The suppressed branch's `get_time_until_next_warning` call is used
only for logging and does not change the (already loaded) state. -/
def send_warning (cd : Int) (st : WMState) (bot : Transport) (m : WMessage)
    (now : Int) : Option Int × WMState :=
  match m.from_user with
  | none => (none, st)
  | some user =>
      let cw := can_warn cd st user.id now
      if cw.1 = false then (none, cw.2)
      else
        match bot with
        | .ok mid => (some mid, record_warning cw.2 user.id now)
        | .err => (none, cw.2)

/-- The elapsed-time label of one stats line (`src/warning_manager.py`
lines 123-129); Python `//` is floor division. -/
def time_label (elapsed : Int) : String :=
  if elapsed < 60 then toString elapsed ++ "с назад"
  else if elapsed < 3600 then toString (Int.fdiv elapsed 60) ++ "м назад"
  else toString (Int.fdiv elapsed 3600) ++ "ч назад"

/-- The cooldown-status label of one stats line (`src/warning_manager.py`
lines 130-131). -/
def status_label (remaining : Int) : String :=
  if remaining > 0 then "⏳ " ++ toString remaining ++ "s"
  else "✅ доступно"

/-- One rendered stats line (`src/warning_manager.py` line 132). -/
def entry_line (cd now : Int) (rec : Int × Int) : String :=
  let elapsed := now - rec.2
  "👤 ID <code>" ++ toString rec.1 ++ "</code>: " ++ time_label elapsed ++
    " [" ++ status_label (cd - elapsed) ++ "]"

/-- `sorted(self._cache.items(), key=lambda x: x[1], reverse=True)`:
stable sort by timestamp, most recent first. -/
def sortRecords (tbl : WTable) : WTable :=
  tbl.mergeSort (fun a b => decide (b.2 ≤ a.2))

/-- The body lines of `WarningManager.format_stats` for a non-empty
mirror (`src/warning_manager.py` lines 120-133). -/
def stats_lines (cd now : Int) (cache : WTable) : List String :=
  ["📊 <b>Статистика предупреждений</b>\n"] ++
    (sortRecords cache).map (entry_line cd now) ++
    ["\n⏱ Cooldown: " ++ toString cd ++ "s"]

/-- `WarningManager.format_stats` (`src/warning_manager.py` lines
115-134). -/
def format_stats (cd : Int) (st : WMState) (now : Int) : String × WMState :=
  let st1 := loadIfEmpty st
  if st1.cache.isEmpty then
    ("📊 <b>Статистика предупреждений</b>\n\nПредупреждений пока не было.",
      st1)
  else (String.intercalate "\n" (stats_lines cd now st1.cache), st1)

/-! ### Concrete fixtures used by witness statements -/

/-- A channel post: `sender_chat` set, everything else absent. -/
def exChannelPost : Message := .mk (some ⟨999⟩) none false none none none none

/-- An ancestor that carries a thread id `5` and also has a parent of its
own. -/
def exThreadReply : Message :=
  .mk none none false none none (some 5) (some blankMessage)

/-- A message replying to `exThreadReply`. -/
def exOverThread : Message :=
  .mk none none false none none none (some exThreadReply)

/-- A message whose fields are present but do not indicate a channel
origin; its `forward_origin` has a missing `chat`. -/
def exOddShape : Message :=
  .mk none (some ⟨42⟩) false (some ⟨123⟩) (some ⟨none⟩) none none

/-- End of a reply chain: carries thread id 5, no parent. -/
def exQualAtOne : Message := .mk none none false none none (some 5) none

/-- Plain intermediate reply whose parent is `exQualAtOne`. -/
def exMid : Message := .mk none none false none none none (some exQualAtOne)

/-- A root whose only qualifying ancestor sits at depth 1. -/
def exRootD1 : Message := .mk none none false none none none (some exMid)

/-- A message from user 42 with no sender attached. -/
def exNoSender : WMessage := ⟨none, -100, 7⟩

/-- A message from user 42 in chat `-100`. -/
def exFromUser42 : WMessage := ⟨some ⟨42, some "bob", "Bob"⟩, -100, 7⟩

end TgBot

namespace TgBot

/-! ## Helper lemmas -/

@[simp] theorem sender_chat_mk (sc fu af ffc fo mti ro) :
    (Message.mk sc fu af ffc fo mti ro).sender_chat = sc := rfl

@[simp] theorem from_user_mk (sc fu af ffc fo mti ro) :
    (Message.mk sc fu af ffc fo mti ro).from_user = fu := rfl

@[simp] theorem is_automatic_forward_mk (sc fu af ffc fo mti ro) :
    (Message.mk sc fu af ffc fo mti ro).is_automatic_forward = af := rfl

@[simp] theorem forward_from_chat_mk (sc fu af ffc fo mti ro) :
    (Message.mk sc fu af ffc fo mti ro).forward_from_chat = ffc := rfl

@[simp] theorem forward_origin_mk (sc fu af ffc fo mti ro) :
    (Message.mk sc fu af ffc fo mti ro).forward_origin = fo := rfl

@[simp] theorem message_thread_id_mk (sc fu af ffc fo mti ro) :
    (Message.mk sc fu af ffc fo mti ro).message_thread_id = mti := rfl

@[simp] theorem reply_to_message_mk (sc fu af ffc fo mti ro) :
    (Message.mk sc fu af ffc fo mti ro).reply_to_message = ro := rfl

theorem loadIfEmpty_of_cache_ne_nil (st : WMState) (h : st.cache ≠ []) :
    loadIfEmpty st = st := by
  unfold loadIfEmpty
  rw [if_neg]
  simp [List.isEmpty_iff, h]

theorem loadIfEmpty_idem (st : WMState) :
    loadIfEmpty (loadIfEmpty st) = loadIfEmpty st := by
  unfold loadIfEmpty
  by_cases h : st.cache.isEmpty <;> simp [h]

theorem assocFind_nil (u : Int) : assocFind [] u = none := rfl

theorem upsert_key_pred_self (u t : Int) :
    (fun r : Int × Int => ((if r.1 == u then ((u, t) : Int × Int) else r).1 == u)) =
      (fun r : Int × Int => r.1 == u) := by
  funext r
  by_cases hr : r.1 = u <;> simp [hr]

theorem upsert_key_pred_other (u t v : Int) :
    (fun r : Int × Int => ((if r.1 == u then ((u, t) : Int × Int) else r).1 == v)) =
      (fun r : Int × Int => r.1 == v) := by
  funext r
  by_cases hr : r.1 = u <;> simp [hr]

theorem assocFind_set_self (tbl : WTable) (u t : Int) :
    assocFind (set_last_warning tbl u t) u = some t := by
  unfold set_last_warning assocFind
  by_cases ha : tbl.any (fun r => r.1 == u) = true
  · rw [if_pos ha, List.find?_map]
    have hfun : ((fun r : Int × Int => r.1 == u) ∘
        (fun r : Int × Int => if r.1 == u then (u, t) else r)) =
        (fun r : Int × Int => r.1 == u) := by
      funext r
      simpa using congrFun (upsert_key_pred_self u t) r
    rw [hfun]
    have hsome : (tbl.find? (fun r : Int × Int => r.1 == u)).isSome = true := by
      rw [List.find?_isSome]
      exact List.any_eq_true.mp ha
    obtain ⟨r0, hr0⟩ := Option.isSome_iff_exists.mp hsome
    have hk : r0.1 = u := by simpa using List.find?_some hr0
    rw [hr0]
    simp [hk]
  · rw [if_neg ha, List.find?_append]
    have hnone : tbl.find? (fun r => r.1 == u) = none := by
      rw [List.find?_eq_none]
      intro x hx hpx
      exact ha (List.any_eq_true.mpr ⟨x, hx, hpx⟩)
    simp [hnone]

theorem assocFind_set_other (tbl : WTable) (u t v : Int) (h : v ≠ u) :
    assocFind (set_last_warning tbl u t) v = assocFind tbl v := by
  unfold set_last_warning assocFind
  by_cases ha : tbl.any (fun r => r.1 == u) = true
  · rw [if_pos ha, List.find?_map]
    have hfun : ((fun r : Int × Int => r.1 == v) ∘
        (fun r : Int × Int => if r.1 == u then (u, t) else r)) =
        (fun r : Int × Int => r.1 == v) := by
      funext r
      simpa using congrFun (upsert_key_pred_other u t v) r
    rw [hfun]
    cases hf : tbl.find? (fun r => r.1 == v) with
    | none => simp
    | some r0 =>
      have hk : r0.1 = v := by simpa using List.find?_some hf
      have hku : ¬ (r0.1 = u) := by rw [hk]; exact h
      simp [hku]
  · rw [if_neg ha, List.find?_append]
    have huv : ((u : Int) == v) = false := beq_eq_false_iff_ne.mpr (Ne.symm h)
    have hlast : List.find? (fun r : Int × Int => r.1 == v) [(u, t)] = none := by
      simp [List.find?, huv]
    rw [hlast]
    cases tbl.find? (fun r => r.1 == v) <;> simp

theorem fst_upsert (u t : Int) :
    (Prod.fst ∘ (fun r : Int × Int => if r.1 == u then (u, t) else r)) =
      Prod.fst := by
  funext r
  by_cases hr : r.1 = u <;> simp [hr]

theorem count_keys_set (tbl : WTable) (u t : Int)
    (hnd : (tbl.map Prod.fst).Nodup) :
    ((set_last_warning tbl u t).map Prod.fst).count u ≤ 1 := by
  unfold set_last_warning
  by_cases ha : tbl.any (fun r => r.1 == u) = true
  · rw [if_pos ha, List.map_map, fst_upsert]
    exact List.nodup_iff_count_le_one.mp hnd u
  · rw [if_neg ha, List.map_append, List.count_append]
    have hmem : u ∉ tbl.map Prod.fst := by
      intro hmem
      obtain ⟨r, hr, hru⟩ := List.mem_map.mp hmem
      exact ha (List.any_eq_true.mpr ⟨r, hr, by simp [hru]⟩)
    rw [List.count_eq_zero.mpr hmem]
    simp [List.count_cons]

theorem set_last_warning_ne_nil (tbl : WTable) (u t : Int) :
    set_last_warning tbl u t ≠ [] := by
  unfold set_last_warning
  by_cases ha : tbl.any (fun r => r.1 == u) = true
  · rw [if_pos ha]
    intro hnil
    rw [List.map_eq_nil_iff] at hnil
    rw [hnil] at ha
    simp at ha
  · rw [if_neg ha]
    simp

theorem loadIfEmpty_store (st : WMState) :
    (loadIfEmpty st).store = st.store := by
  unfold loadIfEmpty
  by_cases h : st.cache.isEmpty <;> simp [h]

theorem can_warn_snd (cd : Int) (st : WMState) (uid now : Int) :
    (can_warn cd st uid now).2 = loadIfEmpty st := by
  simp only [can_warn]
  cases hf : assocFind (loadIfEmpty st).cache uid with
  | none => simp [hf]
  | some ts =>
    simp only [hf]
    by_cases hts : ts = 0 <;> simp [hts]

theorem can_warn_loadIfEmpty (cd : Int) (st : WMState) (uid now : Int) :
    can_warn cd (loadIfEmpty st) uid now = can_warn cd st uid now := by
  simp only [can_warn]
  rw [loadIfEmpty_idem]

theorem can_warn_mono (cd : Int) (st : WMState) (uid t t2 : Int)
    (h12 : t ≤ t2) (h : (can_warn cd st uid t).1 = true) :
    (can_warn cd st uid t2).1 = true := by
  simp only [can_warn] at h ⊢
  cases hf : assocFind (loadIfEmpty st).cache uid with
  | none => simp [hf]
  | some ts =>
    rw [hf] at h
    simp only [hf]
    by_cases hts : ts = 0
    · simp [hts]
    · simp [hts] at h ⊢
      omega

/-! ## Claims -/

/-- C1: for every message that carries a non-empty sender-channel marker
(`sender_chat`), `is_channel_post` returns `true`, regardless of the
values of all other fields (they are universally quantified here). -/
theorem claim1_sender_chat_channel_post (s : AnalyzerSettings) (m : Message)
    (c : Chat) (h : m.sender_chat = some c) :
    is_channel_post s m = true := by
  cases m with
  | mk sc fu af ffc fo mti ro =>
    simp only [sender_chat_mk] at h
    subst h
    simp [is_channel_post]

/-- Witness for C1 at a concrete channel post. -/
theorem claim1_sender_chat_channel_post_witness :
    is_channel_post ⟨999, 20⟩ exChannelPost = true :=
  claim1_sender_chat_channel_post ⟨999, 20⟩ exChannelPost ⟨999⟩ rfl

/-- C2: during the bounded reply-ancestry walk, an ancestor examined at a
depth below `max_chain_depth` that carries a non-empty thread id makes the
walk return `true` there, even when the ancestor also has a parent of its
own: the conclusion holds for every value of `reply.reply_to_message`, so
the thread-id check is decided before any recursion into the parent. -/
theorem claim2_thread_id_before_recursion (s : AnalyzerSettings)
    (m reply : Message) (d : Nat)
    (hd : d < s.max_chain_depth)
    (hr : m.reply_to_message = some reply)
    (ht : truthyInt reply.message_thread_id = true) :
    check_reply_chain s m d = true := by
  cases m with
  | mk sc fu af ffc fo mti ro =>
    simp only [reply_to_message_mk] at hr
    subst hr
    simp only [check_reply_chain]
    rw [if_neg (Nat.not_le.mpr hd)]
    simp [ht]

/-- Witness for C2: the examined ancestor carries thread id 5 and has a
parent of its own. -/
theorem claim2_thread_id_before_recursion_witness :
    check_reply_chain ⟨999, 20⟩ exOverThread 0 = true :=
  claim2_thread_id_before_recursion ⟨999, 20⟩ exOverThread exThreadReply 0
    (by decide) rfl rfl

/-- C3: when `message.from_user` is `None`, `send_warning` returns `None`
immediately: the result and state do not depend on the transport outcome
(the transport is universally quantified), and the state — mirror and
store — is returned unchanged. -/
theorem claim3_no_sender_skipped (cd : Int) (st : WMState) (tr : Transport)
    (m : WMessage) (now : Int) (h : m.from_user = none) :
    send_warning cd st tr m now = (none, st) := by
  simp [send_warning, h]

/-- Witness for C3 at a concrete sender-less message. -/
theorem claim3_no_sender_skipped_witness :
    send_warning 180 ⟨[(1, 5)], [(1, 5)]⟩ Transport.err exNoSender 1000 =
      (none, ⟨[(1, 5)], [(1, 5)]⟩) :=
  claim3_no_sender_skipped 180 ⟨[(1, 5)], [(1, 5)]⟩ Transport.err exNoSender
    1000 rfl

/-- C10: a stored last-warning timestamp equal to 0 is treated exactly
like an absent record: `can_warn` is `true` and
`get_time_until_next_warning` is `None`, for every current time and every
cooldown. -/
theorem claim10_zero_ts_like_absent (cd : Int) (st : WMState)
    (uid now : Int) (h : assocFind st.cache uid = some 0) :
    (can_warn cd st uid now).1 = true ∧
    (get_time_until_next_warning cd st uid now).1 = none := by
  have hne : st.cache ≠ [] := by
    intro hnil
    rw [hnil, assocFind_nil] at h
    exact Option.noConfusion h
  have hload : loadIfEmpty st = st := loadIfEmpty_of_cache_ne_nil st hne
  constructor
  · simp [can_warn, hload, h]
  · simp [get_time_until_next_warning, hload, h]

/-- Witness for C10 at a concrete state holding timestamp 0. -/
theorem claim10_zero_ts_like_absent_witness :
    (can_warn 180 ⟨[(42, 0)], [(42, 0)]⟩ 42 999999).1 = true ∧
    (get_time_until_next_warning 180 ⟨[(42, 0)], [(42, 0)]⟩ 42 999999).1 =
      none :=
  claim10_zero_ts_like_absent 180 ⟨[(42, 0)], [(42, 0)]⟩ 42 999999 rfl

/-- C8: `set_last_warning` is a last-write-wins upsert: a following `get`
for the same user returns the new timestamp, the table keeps at most one
record for that user (given the primary-key invariant on the input), and
every other user's `get` is unchanged. -/
theorem claim8_store_upsert (tbl : WTable) (u t : Int)
    (hnd : (tbl.map Prod.fst).Nodup) :
    get_last_warning (set_last_warning tbl u t) u = some t ∧
    ((set_last_warning tbl u t).map Prod.fst).count u ≤ 1 ∧
    ∀ v, v ≠ u → get_last_warning (set_last_warning tbl u t) v =
      get_last_warning tbl v :=
  ⟨assocFind_set_self tbl u t,
   count_keys_set tbl u t hnd,
   fun v hv => assocFind_set_other tbl u t v hv⟩

/-- C4: when the transport send raises, `send_warning` returns `None`
without persisting: the store is unchanged, the mirror's effective entry
for the user is unchanged (only the lazy snapshot load may have run), and
a subsequent call for the same user within the cooldown window still
sends (`Sent`, not `Suppressed`). -/
theorem claim4_send_failure_no_persist (cd : Int) (st : WMState)
    (m : WMessage) (u : WUser) (t t2 mid : Int)
    (hu : m.from_user = some u)
    (hcw : (can_warn cd st u.id t).1 = true)
    (h12 : t ≤ t2) (_hwin : t2 < t + cd) :
    (send_warning cd st .err m t).1 = none ∧
    (send_warning cd st .err m t).2.store = st.store ∧
    assocFind (send_warning cd st .err m t).2.cache u.id =
      assocFind (loadIfEmpty st).cache u.id ∧
    (send_warning cd (send_warning cd st .err m t).2 (.ok mid) m t2).1 =
      some mid := by
  have hsnd := can_warn_snd cd st u.id t
  have hstep1 : send_warning cd st .err m t = (none, loadIfEmpty st) := by
    simp only [send_warning, hu]
    rw [hcw]
    simp [hsnd]
  refine ⟨by rw [hstep1], ?_, ?_, ?_⟩
  · rw [hstep1]
    exact loadIfEmpty_store st
  · rw [hstep1]
  · rw [hstep1]
    have hcw2 : (can_warn cd (loadIfEmpty st) u.id t2).1 = true := by
      rw [can_warn_loadIfEmpty]
      exact can_warn_mono cd st u.id t t2 h12 hcw
    simp only [send_warning, hu]
    rw [hcw2]
    simp

/-- Witness for C4: a failed send to user 42 leaves the state untouched
and a retry 100 seconds later (inside the 180-second window) sends. -/
theorem claim4_send_failure_no_persist_witness :
    (send_warning 180 ⟨[], []⟩ .err exFromUser42 1000).1 = none ∧
    (send_warning 180 ⟨[], []⟩ .err exFromUser42 1000).2.store = [] ∧
    assocFind (send_warning 180 ⟨[], []⟩ .err exFromUser42 1000).2.cache 42 =
      assocFind (loadIfEmpty ⟨[], []⟩).cache 42 ∧
    (send_warning 180 (send_warning 180 ⟨[], []⟩ .err exFromUser42 1000).2
      (.ok 55) exFromUser42 1100).1 = some 55 :=
  claim4_send_failure_no_persist 180 ⟨[], []⟩ exFromUser42
    ⟨42, some "bob", "Bob"⟩ 1000 1100 55 rfl (by decide) (by decide)
    (by decide)

/-- C7: for a user with no effective cooldown record, at positive wall
time and positive cooldown: a first `send_warning` yields `Sent`, an
immediately following one yields `None` with a positive remaining
cooldown (`Suppressed`), and a third call strictly after the cooldown has
elapsed since the recorded timestamp yields `Sent` again — for any
transport outcome offered to the suppressed middle call. -/
theorem claim7_cooldown_cycle (cd : Int) (st : WMState) (m : WMessage)
    (u : WUser) (t t3 mid1 mid3 : Int) (tr2 : Transport)
    (hcd : 0 < cd) (ht : 0 < t)
    (hu : m.from_user = some u)
    (habs : assocFind (loadIfEmpty st).cache u.id = none)
    (ht3 : t + cd < t3) :
    (send_warning cd st (.ok mid1) m t).1 = some mid1 ∧
    (send_warning cd (send_warning cd st (.ok mid1) m t).2 tr2 m t).1 =
      none ∧
    (∃ rem, (get_time_until_next_warning cd
        (send_warning cd st (.ok mid1) m t).2 u.id t).1 = some rem ∧
      0 < rem) ∧
    (send_warning cd (send_warning cd st (.ok mid1) m t).2 (.ok mid3) m
      t3).1 = some mid3 := by
  have hcw1 : can_warn cd st u.id t = (true, loadIfEmpty st) := by
    simp only [can_warn, habs]
  have hstep1 : send_warning cd st (.ok mid1) m t =
      (some mid1, record_warning (loadIfEmpty st) u.id t) := by
    simp only [send_warning, hu]
    rw [hcw1]
    simp
  have hcache1 : (record_warning (loadIfEmpty st) u.id t).cache =
      set_last_warning (loadIfEmpty st).cache u.id t := rfl
  have hne1 : (record_warning (loadIfEmpty st) u.id t).cache ≠ [] := by
    rw [hcache1]
    exact set_last_warning_ne_nil _ _ _
  have hload1 : loadIfEmpty (record_warning (loadIfEmpty st) u.id t) =
      record_warning (loadIfEmpty st) u.id t :=
    loadIfEmpty_of_cache_ne_nil _ hne1
  have hfind1 : assocFind (record_warning (loadIfEmpty st) u.id t).cache
      u.id = some t := by
    rw [hcache1]
    exact assocFind_set_self _ _ _
  have hcw2 : can_warn cd (record_warning (loadIfEmpty st) u.id t) u.id t =
      (false, record_warning (loadIfEmpty st) u.id t) := by
    simp only [can_warn, hload1, hfind1]
    rw [if_neg (by omega : ¬ t = 0)]
    simp only [Prod.mk.injEq, decide_eq_false_iff_not]
    exact ⟨by omega, trivial⟩
  have hcw3 : can_warn cd (record_warning (loadIfEmpty st) u.id t) u.id t3 =
      (true, record_warning (loadIfEmpty st) u.id t) := by
    simp only [can_warn, hload1, hfind1]
    rw [if_neg (by omega : ¬ t = 0)]
    simp only [Prod.mk.injEq, decide_eq_true_eq]
    exact ⟨by omega, trivial⟩
  refine ⟨by rw [hstep1], ?_, ?_, ?_⟩
  · rw [hstep1]
    simp only [send_warning, hu]
    rw [hcw2]
    simp
  · rw [hstep1]
    refine ⟨cd, ?_, hcd⟩
    simp only [get_time_until_next_warning, hload1, hfind1]
    rw [if_neg (by omega : ¬ t = 0)]
    rw [if_pos (by omega : cd - (t - t) > 0)]
    simp only
    congr 1
    omega
  · rw [hstep1]
    simp only [send_warning, hu]
    rw [hcw3]
    simp

/-- Witness for C7: user 42, cooldown 180, calls at times 1000, 1000 and
1181. -/
theorem claim7_cooldown_cycle_witness :
    (send_warning 180 ⟨[], []⟩ (.ok 55) exFromUser42 1000).1 = some 55 ∧
    (send_warning 180 (send_warning 180 ⟨[], []⟩ (.ok 55) exFromUser42
      1000).2 (.ok 56) exFromUser42 1000).1 = none ∧
    (∃ rem, (get_time_until_next_warning 180
        (send_warning 180 ⟨[], []⟩ (.ok 55) exFromUser42 1000).2 42
        1000).1 = some rem ∧ 0 < rem) ∧
    (send_warning 180 (send_warning 180 ⟨[], []⟩ (.ok 55) exFromUser42
      1000).2 (.ok 57) exFromUser42 1181).1 = some 57 :=
  claim7_cooldown_cycle 180 ⟨[], []⟩ exFromUser42 ⟨42, some "bob", "Bob"⟩
    1000 1181 55 57 (.ok 56) (by decide) (by decide) rfl rfl (by decide)

/-- Witness for C8 on a concrete two-row table. -/
theorem claim8_store_upsert_witness :
    get_last_warning (set_last_warning [(1, 10), (2, 20)] 2 99) 2 = some 99 ∧
    ((set_last_warning [(1, 10), (2, 20)] 2 99).map Prod.fst).count 2 ≤ 1 ∧
    ∀ v, v ≠ 2 → get_last_warning (set_last_warning [(1, 10), (2, 20)] 2 99) v =
      get_last_warning [(1, 10), (2, 20)] v :=
  claim8_store_upsert [(1, 10), (2, 20)] 2 99 (by decide)

/-- C6: `is_channel_post` is a total function (it is defined for every
message shape of the model, in which any malformed or missing field reads
as "not present"), and when every inspected field is absent or fails its
test the classification falls through to `false`. -/
theorem claim6_channel_post_fall_through (s : AnalyzerSettings)
    (m : Message)
    (h1 : m.sender_chat = none)
    (h2 : ∀ u, m.from_user = some u → u.id ≠ TELEGRAM_SERVICE_ID)
    (h3 : m.is_automatic_forward = false)
    (h4 : ∀ c, m.forward_from_chat = some c → c.id ≠ s.channel_id)
    (h5 : ∀ o c, m.forward_origin = some o → o.chat = some c →
      c.id ≠ s.channel_id) :
    is_channel_post s m = false := by
  cases m with
  | mk sc fu af ffc fo mti ro =>
    simp only [sender_chat_mk] at h1
    simp only [from_user_mk] at h2
    simp only [is_automatic_forward_mk] at h3
    simp only [forward_from_chat_mk] at h4
    simp only [forward_origin_mk] at h5
    subst h1
    subst h3
    simp [is_channel_post]
    refine ⟨?_, ?_, ?_⟩
    · cases fu with
      | none => rfl
      | some u => exact beq_eq_false_iff_ne.mpr (h2 u rfl)
    · cases ffc with
      | none => rfl
      | some c => exact beq_eq_false_iff_ne.mpr (h4 c rfl)
    · cases fo with
      | none => rfl
      | some o =>
        obtain ⟨oc⟩ := o
        cases oc with
        | none => rfl
        | some c => exact beq_eq_false_iff_ne.mpr (h5 ⟨some c⟩ c rfl rfl)

/-- Witness for C6: a message with a non-service sender, a forward source
other than the channel, and a forward origin whose chat is missing is not
classified as a channel post. -/
theorem claim6_channel_post_fall_through_witness :
    is_channel_post ⟨999, 20⟩ exOddShape = false :=
  claim6_channel_post_fall_through ⟨999, 20⟩ exOddShape rfl
    (fun u h => by
      injection h with h2
      subst h2
      decide)
    rfl
    (fun c h => by
      injection h with h2
      subst h2
      decide)
    (fun o c ho hc => by
      injection ho with h2
      subst h2
      exact Option.noConfusion hc)

theorem sortRecords_sorted (tbl : WTable) :
    (sortRecords tbl).Pairwise (fun a b => b.2 ≤ a.2) := by
  have htrans : ∀ a b c : Int × Int,
      (decide (b.2 ≤ a.2)) = true → (decide (c.2 ≤ b.2)) = true →
      (decide (c.2 ≤ a.2)) = true := by
    intro a b c hab hbc
    simp only [decide_eq_true_eq] at *
    omega
  have htotal : ∀ a b : Int × Int,
      ((decide (b.2 ≤ a.2)) || (decide (a.2 ≤ b.2))) = true := by
    intro a b
    simp only [Bool.or_eq_true, decide_eq_true_eq]
    exact le_total b.2 a.2
  have h := @List.sorted_mergeSort (Int × Int)
    (fun a b => decide (b.2 ≤ a.2)) htrans htotal tbl
  unfold sortRecords
  exact h.imp (fun hab => of_decide_eq_true hab)

theorem sortRecords_perm (tbl : WTable) : (sortRecords tbl).Perm tbl :=
  List.mergeSort_perm tbl _

/-- C9: stats formatting — the records are rendered sorted by
last-warning timestamp descending (a permutation of the mirror, pairwise
non-increasing in the timestamp); the elapsed label of a line uses
seconds below one minute, minutes below one hour and hours otherwise; a
record whose remaining cooldown is `≤ 0` is marked available while a
positive remainder shows the remaining seconds. -/
theorem claim9_format_stats (cd now : Int) :
    (∀ tbl : WTable, (sortRecords tbl).Pairwise (fun a b => b.2 ≤ a.2)) ∧
    (∀ tbl : WTable, (sortRecords tbl).Perm tbl) ∧
    (∀ e : Int, e < 60 → time_label e = toString e ++ "с назад") ∧
    (∀ e : Int, 60 ≤ e → e < 3600 →
      time_label e = toString (Int.fdiv e 60) ++ "м назад") ∧
    (∀ e : Int, 3600 ≤ e →
      time_label e = toString (Int.fdiv e 3600) ++ "ч назад") ∧
    (∀ r : Int, r ≤ 0 → status_label r = "✅ доступно") ∧
    (∀ r : Int, 0 < r → status_label r = "⏳ " ++ toString r ++ "s") ∧
    (∀ st : WMState, (loadIfEmpty st).cache.isEmpty = false →
      (format_stats cd st now).1 =
        String.intercalate "\n" (stats_lines cd now (loadIfEmpty st).cache)) := by
  refine ⟨sortRecords_sorted, sortRecords_perm, ?_, ?_, ?_, ?_, ?_, ?_⟩
  · intro e he
    unfold time_label
    rw [if_pos he]
  · intro e he1 he2
    unfold time_label
    rw [if_neg (by omega), if_pos he2]
  · intro e he
    unfold time_label
    rw [if_neg (by omega), if_neg (by omega)]
  · intro r hr
    unfold status_label
    rw [if_neg (by omega)]
  · intro r hr
    unfold status_label
    rw [if_pos hr]
  · intro st hst
    simp only [format_stats]
    rw [if_neg (by simp [hst])]

/-- Witness for C9 at a concrete mirror and concrete elapsed values. -/
theorem claim9_format_stats_witness :
    (sortRecords [(1, 10), (2, 30), (3, 20)]).Pairwise
      (fun a b => b.2 ≤ a.2) ∧
    time_label 25 = "25с назад" ∧
    time_label 125 = "2м назад" ∧
    time_label 7300 = "2ч назад" ∧
    status_label (-5) = "✅ доступно" ∧
    status_label 170 = "⏳ 170s" := by
  obtain ⟨h1, -, h3, h4, h5, h6, h7, -⟩ := claim9_format_stats 180 1000
  refine ⟨h1 _, ?_, ?_, ?_, h6 (-5) (by decide), ?_⟩
  · rw [h3 25 (by decide)]
    rfl
  · rw [h4 125 (by decide) (by decide)]
    rfl
  · rw [h5 7300 (by decide)]
    rfl
  · rw [h7 170 (by decide)]
    rfl

/-- The bounded walk, started at offset `d`, on a chain whose first
qualifying ancestor (index in `ancestors`, immediate parent = 0) is `D`:
it returns `true` exactly when that ancestor is examined before the depth
limit, i.e. when `d + D < max_chain_depth`. -/
theorem check_chain_first_qualifier (s : AnalyzerSettings) :
    ∀ (D : Nat) (m : Message) (d : Nat),
      D < (ancestors m).length →
      qualifies s ((ancestors m).getD D blankMessage) = true →
      (∀ i, i < D →
        qualifies s ((ancestors m).getD i blankMessage) = false) →
      check_reply_chain s m d = decide (d + D < s.max_chain_depth) := by
  intro D
  induction D with
  | zero =>
    intro m d hlen hq _
    cases m with
    | mk sc fu af ffc fo mti ro =>
      cases ro with
      | none => simp [ancestors] at hlen
      | some r =>
        have hanc : ancestors (Message.mk sc fu af ffc fo mti (some r)) =
            r :: ancestors r := rfl
        rw [hanc] at hq
        rw [List.getD_cons_zero] at hq
        simp only [check_reply_chain]
        by_cases hd : d ≥ s.max_chain_depth
        · rw [if_pos hd]
          symm
          simp only [decide_eq_false_iff_not]
          omega
        · rw [if_neg hd]
          have hdec : decide (d + 0 < s.max_chain_depth) = true := by
            simp only [decide_eq_true_eq]
            omega
          rw [hdec]
          unfold qualifies at hq
          rcases Bool.or_eq_true_iff.mp hq with hicp | ht
          · simp [hicp]
          · simp [ht]
  | succ D ih =>
    intro m d hlen hq hmin
    cases m with
    | mk sc fu af ffc fo mti ro =>
      cases ro with
      | none => simp [ancestors] at hlen
      | some r =>
        have hanc : ancestors (Message.mk sc fu af ffc fo mti (some r)) =
            r :: ancestors r := rfl
        rw [hanc] at hlen hq hmin
        have hlen2 : D < (ancestors r).length := by
          simpa using hlen
        have hq2 : qualifies s ((ancestors r).getD D blankMessage) =
            true := by
          rw [List.getD_cons_succ] at hq
          exact hq
        have hq0 : qualifies s r = false := by
          have h0 := hmin 0 (Nat.succ_pos D)
          rwa [List.getD_cons_zero] at h0
        have hmin2 : ∀ i, i < D →
            qualifies s ((ancestors r).getD i blankMessage) = false := by
          intro i hi
          have h1 := hmin (i + 1) (by omega)
          rwa [List.getD_cons_succ] at h1
        have hicp : is_channel_post s r = false :=
          (Bool.or_eq_false_iff.mp hq0).1
        have hti : truthyInt r.message_thread_id = false :=
          (Bool.or_eq_false_iff.mp hq0).2
        obtain ⟨r2, hr2⟩ : ∃ r2, r.reply_to_message = some r2 := by
          cases r with
          | mk sc2 fu2 af2 ffc2 fo2 mti2 ro2 =>
            cases ro2 with
            | none => simp [ancestors] at hlen2
            | some r2 => exact ⟨r2, rfl⟩
        simp only [check_reply_chain]
        by_cases hd : d ≥ s.max_chain_depth
        · rw [if_pos hd]
          symm
          simp only [decide_eq_false_iff_not]
          omega
        · rw [if_neg hd]
          have hstep := ih r (d + 1) hlen2 hq2 hmin2
          have harith : d + 1 + D = d + (D + 1) := by omega
          rw [harith] at hstep
          simp only [hicp, hti, Bool.false_eq_true, if_false, hr2, hstep]

/-- C5: for a reply chain whose first qualifying ancestor (channel post
or non-empty thread id) sits at depth `D` counted from the immediate
parent at depth 0, and whose root itself does not qualify,
`is_in_discussion_thread` is `true` exactly when
`D < max_chain_depth`. -/
theorem claim5_depth_boundary (s : AnalyzerSettings) (m : Message)
    (D : Nat)
    (hroot : qualifies s m = false)
    (hlen : D < (ancestors m).length)
    (hq : qualifies s ((ancestors m).getD D blankMessage) = true)
    (hmin : ∀ i, i < D →
      qualifies s ((ancestors m).getD i blankMessage) = false) :
    is_in_discussion_thread s m = decide (D < s.max_chain_depth) := by
  have hicp : is_channel_post s m = false :=
    (Bool.or_eq_false_iff.mp hroot).1
  have hti : truthyInt m.message_thread_id = false :=
    (Bool.or_eq_false_iff.mp hroot).2
  unfold is_in_discussion_thread
  rw [hicp, hti]
  simp only [Bool.false_eq_true, if_false]
  have h := check_chain_first_qualifier s D m 0 hlen hq hmin
  rwa [Nat.zero_add] at h

/-- Witness for C5: with `max_chain_depth = 2`, a chain whose only
qualifying ancestor is at depth 1 is classified as inside the thread. -/
theorem claim5_depth_boundary_witness :
    is_in_discussion_thread ⟨999, 2⟩ exRootD1 = true := by
  have h := claim5_depth_boundary ⟨999, 2⟩ exRootD1 1 (by decide)
    (by decide) (by decide)
    (fun i hi => by
      have h0 : i = 0 := by omega
      subst h0
      decide)
  simpa using h

end TgBot
